import Mathlib

/-!
# Verification of the pix_checker transactional ledger core

Shallow embedding of the repository's ledger core (`database.py`,
`main.py`, `pix_checker.py`) and proofs about it.

Embedding conventions:
* Monetary values are rationals (`ℚ`).  Python computes on `decimal.Decimal`
  (exact) or on floats whose decimal string round-trips exactly for the
  2–4 decimal digit values that occur here, so both are modelled exactly.
* The PostgreSQL columns `balance NUMERIC(15,2)` and `amount NUMERIC(15,2)`
  round every stored value to two decimal places, ties away from zero
  (PostgreSQL `numeric` rounding); `round2aw` models that store-side
  rounding and is applied at every write of a numeric column.
* Python's built-in `round(x, 2)` rounds half to even; `round2he` models it.
* A multi-statement psycopg2 connection is modelled by `Scope`: a pending
  database value plus an `aborted` flag.  A failing SQL statement (failure
  injected through a `Bool` parameter) marks the scope aborted; every later
  statement on an aborted connection fails as well ("current transaction is
  aborted"), and `commit` on an aborted scope is a rollback, which is
  exactly PostgreSQL/psycopg2 behaviour.  The Python helper functions
  catch `psycopg2.Error` and return a failure value without closing the
  external connection, which the scoped operations reproduce.
* Timestamps and the user's name columns play no role in any claim and are
  omitted from the row types; the poller's 2-hour window filter is treated
  as the given input list of pending rows.
-/

/-- Round a rational to two decimal places, ties away from zero.
This is the rounding PostgreSQL applies when storing into `NUMERIC(15,2)`. -/
def round2aw (x : ℚ) : ℚ :=
  if 0 ≤ x then ((⌊x * 100 + 1/2⌋ : ℤ) : ℚ) / 100
  else -(((⌊-(x * 100) + 1/2⌋ : ℤ) : ℚ) / 100)

/-- Round a rational to two decimal places, ties to even
(Python's built-in `round(x, 2)`). -/
def round2he (x : ℚ) : ℚ :=
  let f : ℤ := ⌊x * 100⌋
  let r : ℚ := x * 100 - f
  let k : ℤ :=
    if r < 1/2 then f
    else if 1/2 < r then f + 1
    else if f % 2 = 0 then f else f + 1
  ((k : ℤ) : ℚ) / 100

/-- `x` is a whole number of cents, i.e. representable in a `NUMERIC(15,2)`
column without rounding. -/
def IsCents (x : ℚ) : Prop := ∃ n : ℤ, x = (n : ℚ) / 100

/-- A row of the `users` table (`database.py`, `init_db`); the text columns
and `created_at` are omitted as no claim mentions them. -/
structure UserRow where
  telegram_id : Nat
  balance : ℚ
  deriving Repr, DecidableEq

/-- A row of the `transactions` table (`database.py`, `init_db`);
`created_at`/`updated_at` are omitted as no claim mentions them. -/
structure TxRow where
  id : Nat
  user_telegram_id : Nat
  type : String
  amount : ℚ
  status : String
  pix_key : Option String
  mercado_pago_id : Option String
  admin_notes : Option String
  deriving Repr, DecidableEq

/-- The ledger store: the two tables plus the `SERIAL` sequence counter
backing `transactions.id`. -/
structure DB where
  users : List UserRow
  transactions : List TxRow
  next_id : Nat
  deriving Repr, DecidableEq

/-- Modelled from the spec: `config.py` is not part of the sources; the
pending-deposit status string is taken from the `pix_checker.py` docstring
("AGUARDANDO PAGAMENTO").  Only distinctness of the status strings matters. -/
def STATUS_DEPOSITO_PENDENTE : String := "AGUARDANDO PAGAMENTO"

/-- Modelled from the spec: `config.py` is absent; the paid-deposit status. -/
def STATUS_DEPOSITO_PAGO : String := "PAGO"

/-- Modelled from the spec: `config.py` is absent; the under-review
withdrawal status named "EM ANÁLISE" in the `database.py` docstring. -/
def STATUS_EM_ANALISE : String := "EM ANÁLISE"

/-- The completed status; `database.py` (`admin_set_balance`) uses the
literal string "CONCLUIDO" for it. -/
def STATUS_CONCLUIDO : String := "CONCLUIDO"

/-- Modelled from the spec: `config.py` is absent; the numeric
configuration inputs consumed by the core (spec §6), kept abstract. -/
structure Config where
  TAXA_DEPOSITO_PERCENTUAL : ℚ
  TAXA_SAQUE_FIXA : ℚ
  TAXA_SAQUE_PERCENTUAL : ℚ
  LIMITE_MINIMO_SAQUE : ℚ
  deriving Repr

/-- `SELECT ... FROM users WHERE telegram_id = %s`. -/
def findUser (db : DB) (uid : Nat) : Option UserRow :=
  db.users.find? (fun u => u.telegram_id == uid)

/-- `database.get_balance`: the stored balance, `0.00` when the row is
absent. -/
def get_balance (db : DB) (uid : Nat) : ℚ :=
  ((findUser db uid).map (fun u => u.balance)).getD 0

/-- `UPDATE users SET balance = %s WHERE telegram_id = %s` (the stored
value is already rounded by the caller to model the `NUMERIC(15,2)`
column).  Touches no row when the id is absent. -/
def setBal (uid : Nat) (b : ℚ) (u : UserRow) : UserRow :=
  if u.telegram_id = uid then { u with balance := b } else u

/-- See `setBal`; the whole-table `UPDATE`. -/
def writeBalance (db : DB) (uid : Nat) (b : ℚ) : DB :=
  { db with users := db.users.map (setBal uid b) }

/-- Whether the `users` row exists (`cursor.rowcount > 0` on its update). -/
def userExists (db : DB) (uid : Nat) : Bool :=
  (findUser db uid).isSome

/-- `database.create_user_if_not_exists` (`INSERT ... ON CONFLICT DO
NOTHING` with balance `0.00`). -/
def create_user_if_not_exists (db : DB) (uid : Nat) : DB :=
  if userExists db uid then db
  else { db with users := db.users ++ [⟨uid, 0⟩] }

/-- `database.update_balance` on its own connection: read the balance
(`0.00` when the row is absent), fail leaving the store untouched when the
new balance would be negative, otherwise write it (rounded by the
`NUMERIC(15,2)` column) and report success — also when no row was updated. -/
def update_balance (db : DB) (uid : Nat) (delta : ℚ) : Bool × DB :=
  let current := get_balance db uid
  let nb := current + delta
  if nb < 0 then (false, db)
  else (true, writeBalance db uid (round2aw nb))

/-- `database.record_transaction` on its own connection: insert one row
with the `SERIAL`-assigned id and return the id. -/
def record_transaction (db : DB) (uid : Nat) (ty : String) (amount : ℚ)
    (status : String) (pk mp notes : Option String) : Nat × DB :=
  let tid := db.next_id
  let row : TxRow := ⟨tid, uid, ty, round2aw amount, status, pk, mp, notes⟩
  (tid, { db with transactions := db.transactions ++ [row], next_id := db.next_id + 1 })

/-- The row update performed by `database.update_transaction_status`:
status is overwritten unconditionally; `mercado_pago_id` / `admin_notes`
only when the corresponding keyword argument was supplied. -/
def applyStatusUpdate (tid : Nat) (st : String) (mp? notes? : Option String)
    (t : TxRow) : TxRow :=
  if t.id = tid then
    { t with
        status := st,
        mercado_pago_id := match mp? with | some v => some v | none => t.mercado_pago_id,
        admin_notes := match notes? with | some v => some v | none => t.admin_notes }
  else t

/-- `database.update_transaction_status` on its own connection: updates
every row with the given id and returns `True` (also on zero rows). -/
def update_transaction_status (db : DB) (tid : Nat) (st : String)
    (mp? notes? : Option String) : Bool × DB :=
  (true, { db with transactions := db.transactions.map (applyStatusUpdate tid st mp? notes?) })

/-- `database.admin_set_balance`: overwrite the balance with the supplied
value (no sign check), record a `MANUAL_ADJUST` ledger row, and report
whether a user row was updated.  The note's number formatting is
abstracted by `toString`. -/
def admin_set_balance (db : DB) (uid : Nat) (nb : ℚ) : Bool × DB :=
  if userExists db uid then
    let db1 := writeBalance db uid (round2aw nb)
    let db2 := (record_transaction db1 uid "AJUSTE_MANUAL" nb "CONCLUIDO"
      none none (some ("Saldo definido para R$" ++ toString nb ++ " por um admin."))).2
    (true, db2)
  else (false, db)

/-- `database.get_transaction_details` /
`database.get_transaction_by_id_and_user` without the owner filter:
`SELECT * FROM transactions WHERE id = %s`. -/
def get_transaction_details (db : DB) (tid : Nat) : Option TxRow :=
  db.transactions.find? (fun t => t.id == tid)

/-- An open psycopg2 connection carrying uncommitted statements: the
pending store value plus the PostgreSQL "current transaction is aborted"
flag set by the first failing statement. -/
structure Scope where
  pending : DB
  aborted : Bool

/-- `database.update_balance` with `conn_ext`: a failing SQL statement
(`sqlFail`, or any statement on an already aborted connection) is caught
(`except psycopg2.Error`) and reported as `False` without rollback;
the negative-balance check fails without aborting; otherwise the write
joins the scope. -/
def scopedUpdateBalance (s : Scope) (uid : Nat) (delta : ℚ) (sqlFail : Bool) :
    Bool × Scope :=
  if s.aborted || sqlFail then (false, { s with aborted := true })
  else
    let current := get_balance s.pending uid
    let nb := current + delta
    if nb < 0 then (false, s)
    else (true, { s with pending := writeBalance s.pending uid (round2aw nb) })

/-- `database.record_transaction` with `conn_ext`: returns `None` on a
failed statement (which aborts the scope), otherwise the new id. -/
def scopedRecord (s : Scope) (uid : Nat) (ty : String) (amount : ℚ)
    (status : String) (pk mp notes : Option String) (sqlFail : Bool) :
    Option Nat × Scope :=
  if s.aborted || sqlFail then (none, { s with aborted := true })
  else
    let r := record_transaction s.pending uid ty amount status pk mp notes
    (some r.1, { s with pending := r.2 })

/-- `database.update_transaction_status` with `conn_ext`. -/
def scopedUpdateStatus (s : Scope) (tid : Nat) (st : String)
    (mp? notes? : Option String) (sqlFail : Bool) : Bool × Scope :=
  if s.aborted || sqlFail then (false, { s with aborted := true })
  else (true, { s with pending := (update_transaction_status s.pending tid st mp? notes?).2 })

/-- `conn.commit()`: on an aborted transaction PostgreSQL turns the
`COMMIT` into a rollback (psycopg2 raises nothing), otherwise the pending
statements become visible. -/
def commitScope (orig : DB) (s : Scope) : DB :=
  if s.aborted then orig else s.pending

/-- The deposit-fee note written by `processar_pagamento_aprovado`. -/
def depFeeNote (tid : Nat) : String :=
  "Taxa de depósito referente à transação ID " ++ toString tid

/-- `processar_pagamento_aprovado` (`pix_checker.py`, identically
structured in `main.py`), with one failure-injection flag per SQL step:
guard on the status of the caller-supplied row `tx`, then inside one
connection credit the net amount, insert the `FEE` row and mark the
deposit paid, then commit; the Python helpers swallow statement errors,
so the function still returns `True` after a silently rolled-back commit. -/
def processarRun (cfg : Config) (db : DB) (tx : TxRow)
    (fCredit fFee fMark : Bool) : Bool × DB :=
  if tx.status ≠ STATUS_DEPOSITO_PENDENTE then (false, db)
  else
    let taxa := tx.amount * cfg.TAXA_DEPOSITO_PERCENTUAL
    let liquido := tx.amount - taxa
    let s0 : Scope := ⟨db, false⟩
    let s1 := (scopedUpdateBalance s0 tx.user_telegram_id liquido fCredit).2
    let s2 := (scopedRecord s1 tx.user_telegram_id "FEE" taxa STATUS_CONCLUIDO
      none none (some (depFeeNote tx.id)) fFee).2
    let s3 := (scopedUpdateStatus s2 tx.id STATUS_DEPOSITO_PAGO none none fMark).2
    (true, commitScope db s3)

/-- `processar_pagamento_aprovado` without injected failures. -/
def processar (cfg : Config) (db : DB) (tx : TxRow) : Bool × DB :=
  processarRun cfg db tx false false false

/-- The withdrawal-fee note written by `handle_saque`; a failed
`WITHDRAWAL` insert leaves `transaction_id = None` and Python formats it
as the text "None". -/
def wdFeeNote (tid? : Option Nat) : String :=
  "Taxa referente ao saque ID " ++ (match tid? with | some n => toString n | none => "None")

/-- The atomic part of `handle_saque` (`main.py`): debit the gross amount
(an explicit exception — hence rollback — when `update_balance` reports
failure), insert the `WITHDRAWAL` and `FEE` rows, commit. -/
def handle_saque_atomic (db : DB) (uid : Nat) (chave : String)
    (gross net feeF : ℚ) (fDeb fWd fFee : Bool) : DB :=
  let s0 : Scope := ⟨db, false⟩
  let r1 := scopedUpdateBalance s0 uid (-gross) fDeb
  if !r1.1 then db
  else
    let r2 := scopedRecord r1.2 uid "WITHDRAWAL" net STATUS_EM_ANALISE
      (some chave) none none fWd
    let r3 := scopedRecord r2.2 uid "FEE" feeF STATUS_CONCLUIDO
      none none (some (wdFeeNote r2.1)) fFee
    commitScope db r3.2

/-- `handle_saque` (`main.py`): lazily create the user, validate the three
preconditions before any mutation of balances or ledger rows, then run the
atomic sequence. -/
def handle_saque (cfg : Config) (db : DB) (uid : Nat) (chave : String)
    (gross : ℚ) (fDeb fWd fFee : Bool) : DB :=
  let db0 := create_user_if_not_exists db uid
  if gross ≤ cfg.TAXA_SAQUE_FIXA then db0
  else
    let net := round2he ((gross - cfg.TAXA_SAQUE_FIXA) / (1 + cfg.TAXA_SAQUE_PERCENTUAL))
    if net < cfg.LIMITE_MINIMO_SAQUE then db0
    else
      let feeF := round2he (gross - net)
      if get_balance db0 uid < gross then db0
      else handle_saque_atomic db0 uid chave gross net feeF fDeb fWd fFee

/-- The deposit-fee pattern of `calculate_profits`
(`LIKE 'Taxa de depósito%'`). -/
def depFeePat : List Char := "Taxa de depósito".data

/-- The withdrawal-fee pattern of `calculate_profits`
(`LIKE 'Taxa referente ao saque ID %'`). -/
def wdFeePat : List Char := "Taxa referente ao saque ID ".data

/-- `note LIKE pat || '%'` for an optional note column. -/
def noteMatches (pat : List Char) (n? : Option String) : Bool :=
  match n? with
  | some s => pat.isPrefixOf s.data
  | none => false

/-- Decimal value of a digit list (most significant first). -/
def digitsVal (l : List Char) : Nat :=
  l.foldl (fun a c => a * 10 + (c.toNat - 48)) 0

/-- `substring(note from '(\d+)$')` cast to integer: the maximal nonempty
trailing digit run, `NULL` when there is none. -/
def trailingDigits (s : String) : Option Nat :=
  let ds := (s.data.reverse.takeWhile Char.isDigit).reverse
  if ds.isEmpty then none else some (digitsVal ds)

/-- The withdrawal-fee disjunct of the `calculate_profits` `WHERE`
clause: the note matches the withdrawal-fee pattern and a `CONCLUIDO`
`WITHDRAWAL` row whose id equals the note's trailing digits exists
(the SQL `EXISTS` subquery). -/
def isWdFeeLinked (txs : List TxRow) (t : TxRow) : Bool :=
  noteMatches wdFeePat t.admin_notes &&
    txs.any (fun t2 => t2.type == "WITHDRAWAL" && t2.status == STATUS_CONCLUIDO &&
      (match t.admin_notes with
       | some s => trailingDigits s == some t2.id
       | none => false))

/-- The `WHERE` clause of `calculate_profits`: a `FEE` row with status
`CONCLUIDO` whose note matches the deposit-fee pattern, or matches the
withdrawal-fee pattern while a `CONCLUIDO` `WITHDRAWAL` row with the
note's trailing id exists. -/
def profitRow (txs : List TxRow) (t : TxRow) : Bool :=
  t.type == "FEE" && t.status == STATUS_CONCLUIDO &&
    (noteMatches depFeePat t.admin_notes || isWdFeeLinked txs t)

/-- Sum of the amounts of a list of rows (`COALESCE(SUM(amount), 0.00)`). -/
def sumAmounts (l : List TxRow) : ℚ :=
  l.foldr (fun t a => t.amount + a) 0

/-- `database.calculate_profits`. -/
def calculate_profits (db : DB) : ℚ :=
  sumAmounts (db.transactions.filter (profitRow db.transactions))

/-- The deposit-fee part of the profit sum as the spec words it: `FEE`
rows with status `CONCLUIDO` matching the deposit-fee pattern, always
counted. -/
def claimDepFees (db : DB) : ℚ :=
  sumAmounts (db.transactions.filter (fun t =>
    t.type == "FEE" && t.status == STATUS_CONCLUIDO &&
      noteMatches depFeePat t.admin_notes))

/-- The withdrawal-fee part of the profit sum as the spec words it:
`FEE`/`CONCLUIDO` rows matching the withdrawal-fee pattern whose
note-embedded id refers to a `CONCLUIDO` `WITHDRAWAL` row. -/
def claimWdFees (db : DB) : ℚ :=
  sumAmounts (db.transactions.filter (fun t =>
    t.type == "FEE" && t.status == STATUS_CONCLUIDO && isWdFeeLinked db.transactions t))

/-- One pending deposit of a poll cycle together with its environment:
the gateway's answer for its external reference and the failure injection
for its processing.  Modelled from the spec: `pay.get_payment_details` is
not part of the sources; per spec §6 the Gateway Client returns a status
(absence of a response is treated as "not yet approved") and does not
raise. -/
structure PollItem where
  tx : TxRow
  gatewayStatus : Option String
  fCredit : Bool
  fFee : Bool
  fMark : Bool

/-- One iteration of the poll cycle's inner loop (`iniciar_verificador`,
`verificador_pix_periodico`): query the gateway and process the deposit
when it is approved. -/
def handleItem (cfg : Config) (db : DB) (it : PollItem) : DB :=
  if it.gatewayStatus == some "approved" then
    (processarRun cfg db it.tx it.fCredit it.fFee it.fMark).2
  else db

/-- One full poll cycle over the fetched pending deposits. -/
def runCycle (cfg : Config) (db : DB) (items : List PollItem) : DB :=
  items.foldl (handleItem cfg) db

/-- All balances of a user-table state are non-negative. -/
def NonnegList (l : List UserRow) : Prop := ∀ u ∈ l, 0 ≤ u.balance

/-- All committed balances are non-negative. -/
def NonnegDB (db : DB) : Prop := NonnegList db.users

/-- `update_balance` applied in sequence (`foldl`), also returning the sum
of the deltas of the successful calls. -/
def runDeltas (db : DB) (uid : Nat) : List ℚ → DB × ℚ
  | [] => (db, 0)
  | d :: rest =>
      let r := update_balance db uid d
      let s := runDeltas r.2 uid rest
      (s.1, (if r.1 then d else 0) + s.2)

/-! ## Rounding lemmas -/

theorem floor_one_half : (⌊(1:ℚ)/2⌋ : ℤ) = 0 := by
  rw [Int.floor_eq_iff] <;> norm_num

theorem round2aw_intDiv (n : ℤ) : round2aw ((n : ℚ) / 100) = (n : ℚ) / 100 := by
  unfold round2aw
  have h : ((n:ℚ)/100) * 100 = (n:ℚ) := by field_simp
  split_ifs with h0
  · rw [h, Int.floor_int_add, floor_one_half, add_zero]
  · have hneg : -(((n:ℚ)/100) * 100) = (((-n : ℤ)) : ℚ) := by rw [h]; push_cast; ring
    rw [hneg, Int.floor_int_add, floor_one_half, add_zero]
    push_cast; ring

theorem IsCents.round2aw_eq {x : ℚ} (h : IsCents x) : round2aw x = x := by
  obtain ⟨n, rfl⟩ := h
  exact round2aw_intDiv n

theorem round2aw_nonneg (x : ℚ) (hx : 0 ≤ x) : 0 ≤ round2aw x := by
  unfold round2aw
  rw [if_pos hx]
  have h : (0:ℤ) ≤ ⌊x * 100 + 1/2⌋ := by
    rw [Int.le_floor]; push_cast; linarith
  positivity

theorem round2aw_low (x : ℚ) (f : ℤ) (hx : 0 ≤ x) (h1 : (f:ℚ) ≤ x*100)
    (h2 : x*100 < (f:ℚ) + 1/2) : round2aw x = (f:ℚ)/100 := by
  unfold round2aw
  rw [if_pos hx]
  have hf : ⌊x * 100 + 1/2⌋ = f := by
    rw [Int.floor_eq_iff]
    constructor
    · linarith
    · push_cast; linarith
  rw [hf]

theorem round2aw_halfup (x : ℚ) (f : ℤ) (hx : 0 ≤ x) (h1 : (f:ℚ) + 1/2 ≤ x*100)
    (h2 : x*100 < (f:ℚ) + 1) : round2aw x = ((f:ℚ) + 1)/100 := by
  unfold round2aw
  rw [if_pos hx]
  have hf : ⌊x * 100 + 1/2⌋ = f + 1 := by
    rw [Int.floor_eq_iff]
    constructor
    · push_cast; linarith
    · push_cast; linarith
  rw [hf]
  push_cast; ring

theorem round2he_low (x : ℚ) (f : ℤ) (h1 : (f:ℚ) ≤ x*100)
    (h2 : x*100 < (f:ℚ) + 1/2) : round2he x = (f:ℚ)/100 := by
  have hf : ⌊x * 100⌋ = f := by
    rw [Int.floor_eq_iff]
    constructor
    · linarith
    · push_cast; linarith
  simp only [round2he, hf]
  rw [if_pos (by linarith : x * 100 - (f:ℚ) < 1/2)]

theorem round2he_high (x : ℚ) (f : ℤ) (h1 : (f:ℚ) + 1/2 < x*100)
    (h2 : x*100 < (f:ℚ) + 1) : round2he x = ((f:ℚ) + 1)/100 := by
  have hf : ⌊x * 100⌋ = f := by
    rw [Int.floor_eq_iff]
    constructor
    · linarith
    · push_cast; linarith
  simp only [round2he, hf]
  rw [if_neg (by linarith : ¬ x * 100 - (f:ℚ) < 1/2),
      if_pos (by linarith : 1/2 < x * 100 - (f:ℚ))]
  push_cast; ring

theorem round2he_intDiv (n : ℤ) : round2he ((n : ℚ) / 100) = (n : ℚ) / 100 := by
  have h : ((n:ℚ)/100) * 100 = (n:ℚ) := by field_simp
  rw [round2he_low ((n:ℚ)/100) n (by rw [h]) (by rw [h]; norm_num)]

theorem IsCents.round2he_eq {x : ℚ} (h : IsCents x) : round2he x = x := by
  obtain ⟨n, rfl⟩ := h
  exact round2he_intDiv n

theorem isCents_round2he (x : ℚ) : IsCents (round2he x) := by
  unfold round2he
  exact ⟨_, rfl⟩

theorem isCents_round2aw (x : ℚ) : IsCents (round2aw x) := by
  unfold round2aw
  split_ifs
  · exact ⟨_, rfl⟩
  · exact ⟨-⌊-(x * 100) + 1/2⌋, by push_cast; ring⟩

theorem IsCents.add {x y : ℚ} (hx : IsCents x) (hy : IsCents y) : IsCents (x + y) := by
  obtain ⟨a, rfl⟩ := hx
  obtain ⟨b, rfl⟩ := hy
  exact ⟨a + b, by push_cast; ring⟩

theorem IsCents.neg {x : ℚ} (hx : IsCents x) : IsCents (-x) := by
  obtain ⟨a, rfl⟩ := hx
  exact ⟨-a, by push_cast; ring⟩

theorem IsCents.sub {x y : ℚ} (hx : IsCents x) (hy : IsCents y) : IsCents (x - y) := by
  obtain ⟨a, rfl⟩ := hx
  obtain ⟨b, rfl⟩ := hy
  exact ⟨a - b, by push_cast; ring⟩

/-! ## Scope abort propagation -/

theorem scopedUpdateBalance_aborted (s : Scope) (uid : Nat) (d : ℚ) (f : Bool) :
    ((scopedUpdateBalance s uid d f).2).aborted = (s.aborted || f) := by
  cases hs : s.aborted <;> cases hf : f <;>
    simp [scopedUpdateBalance, hs, hf] <;> split <;> first | exact hs | rfl

theorem scopedRecord_aborted (s : Scope) (uid : Nat) (ty : String) (amount : ℚ)
    (status : String) (pk mp notes : Option String) (f : Bool) :
    ((scopedRecord s uid ty amount status pk mp notes f).2).aborted = (s.aborted || f) := by
  cases hs : s.aborted <;> cases hf : f <;> simp [scopedRecord, hs, hf]

theorem scopedUpdateStatus_aborted (s : Scope) (tid : Nat) (st : String)
    (mp? notes? : Option String) (f : Bool) :
    ((scopedUpdateStatus s tid st mp? notes? f).2).aborted = (s.aborted || f) := by
  cases hs : s.aborted <;> cases hf : f <;> simp [scopedUpdateStatus, hs, hf]

/-- Any injected statement failure makes the whole deposit-confirmation
scope roll back: the committed store is exactly the original one. -/
theorem processarRun_fail (cfg : Config) (db : DB) (tx : TxRow) (f1 f2 f3 : Bool)
    (h : (f1 || f2 || f3) = true) : (processarRun cfg db tx f1 f2 f3).2 = db := by
  unfold processarRun
  split
  · rfl
  · show commitScope db _ = db
    unfold commitScope
    rw [scopedUpdateStatus_aborted, scopedRecord_aborted, scopedUpdateBalance_aborted]
    simp only [Bool.false_or]
    rw [if_pos h]

/-- Any injected statement failure after the debit makes the whole
withdrawal scope roll back. -/
theorem handle_saque_atomic_fail (db : DB) (uid : Nat) (chave : String)
    (gross net feeF : ℚ) (fD fW fF : Bool) (h : (fW || fF) = true) :
    handle_saque_atomic db uid chave gross net feeF fD fW fF = db := by
  simp only [handle_saque_atomic]
  split
  · rfl
  · show commitScope db _ = db
    unfold commitScope
    rw [scopedRecord_aborted, scopedRecord_aborted, scopedUpdateBalance_aborted]
    have : (((false || fD) || fW) || fF) = true := by
      cases fW <;> cases fF <;> cases fD <;> simp_all
    rw [if_pos this]

theorem create_user_exists (db : DB) (uid : Nat) (hu : userExists db uid = true) :
    create_user_if_not_exists db uid = db := by
  unfold create_user_if_not_exists
  rw [if_pos hu]

theorem handle_saque_fail (cfg : Config) (db : DB) (uid : Nat) (chave : String)
    (gross : ℚ) (fD fW fF : Bool) (hu : userExists db uid = true)
    (h : (fW || fF) = true) :
    handle_saque cfg db uid chave gross fD fW fF = db := by
  unfold handle_saque
  simp only [create_user_exists db uid hu]
  split_ifs <;> first
    | rfl
    | exact handle_saque_atomic_fail db uid chave gross _ _ fD fW fF h

/-! ## Concrete fixtures -/

/-- The configuration used in the spec's concrete scenarios (§8):
deposit fee rate 0.11, fixed withdrawal fee 2.00, percentage withdrawal
fee 0.05; minimum net withdrawal chosen as 10.00. -/
def cfgEx : Config := ⟨11/100, 2, 5/100, 10⟩

/-- A pending deposit row of 100.00 for user 7. -/
def txEx : TxRow := ⟨1, 7, "DEPOSIT", 100, STATUS_DEPOSITO_PENDENTE, none, some "mp1", none⟩

/-- A store holding user 7 with zero balance and the pending deposit. -/
def dbEx : DB := ⟨[⟨7, 0⟩], [txEx], 2⟩

/-- C1: if any step between the fee computation and the deposit status
update fails in a deposit-confirmation run, or any step after the initial
debit fails in a withdrawal run, the whole atomic scope rolls back and the
committed store (balances, FEE rows, deposit/withdrawal rows) is exactly
the original one — the deposit stays pending and no partial debit is
observable. -/
theorem C1_atomic_rollback :
    (∀ (cfg : Config) (db : DB) (tx : TxRow) (f1 f2 f3 : Bool),
      (f1 || f2 || f3) = true → (processarRun cfg db tx f1 f2 f3).2 = db) ∧
    (∀ (cfg : Config) (db : DB) (uid : Nat) (chave : String) (gross : ℚ)
      (fD fW fF : Bool), userExists db uid = true → (fW || fF) = true →
      handle_saque cfg db uid chave gross fD fW fF = db) := by
  constructor
  · exact fun cfg db tx f1 f2 f3 h => processarRun_fail cfg db tx f1 f2 f3 h
  · exact fun cfg db uid chave gross fD fW fF hu h =>
      handle_saque_fail cfg db uid chave gross fD fW fF hu h

/-- Witness for C1 at concrete inputs: a failing balance-credit statement
during deposit confirmation, and a failing WITHDRAWAL insert during a
withdrawal, both leave the concrete store unchanged. -/
theorem C1_atomic_rollback_witness :
    (processarRun cfgEx dbEx txEx true false false).2 = dbEx ∧
    handle_saque cfgEx dbEx 7 "cpf:1" 50 false true false = dbEx := by
  constructor
  · exact C1_atomic_rollback.1 cfgEx dbEx txEx true false false (by decide)
  · exact C1_atomic_rollback.2 cfgEx dbEx 7 "cpf:1" 50 false true false (by decide) (by decide)

/-- C9: in one poll cycle, a failure while handling one pending deposit
rolls that item back and the remaining deposits of the same cycle are
still queried and processed exactly as if the failing item were absent;
the cycle itself always runs to completion.  (The gateway client is
spec-modelled: it reports a status or no response and does not raise.) -/
theorem C9_poller_single_item_isolation (cfg : Config) (db : DB)
    (pre post : List PollItem) (it : PollItem)
    (h : (it.fCredit || it.fFee || it.fMark) = true) :
    runCycle cfg db (pre ++ it :: post) = runCycle cfg db (pre ++ post) := by
  unfold runCycle
  rw [List.foldl_append, List.foldl_append, List.foldl_cons]
  congr 1
  unfold handleItem
  split
  · exact processarRun_fail cfg _ it.tx it.fCredit it.fFee it.fMark h
  · rfl

/-- Witness for C9: a cycle holding one approved deposit whose processing
fails is the same as the empty cycle on the concrete store. -/
theorem C9_poller_single_item_isolation_witness :
    runCycle cfgEx dbEx [⟨txEx, some "approved", true, false, false⟩] =
      runCycle cfgEx dbEx [] :=
  C9_poller_single_item_isolation cfgEx dbEx [] [] ⟨txEx, some "approved", true, false, false⟩
    (by decide)

/-! ## Store lemmas -/

theorem setBal_id (uid : Nat) (b : ℚ) (u : UserRow) :
    (setBal uid b u).telegram_id = u.telegram_id := by
  unfold setBal
  split <;> rfl

theorem findUser_writeBalance (db : DB) (uid uid' : Nat) (b : ℚ) :
    findUser (writeBalance db uid b) uid' = (findUser db uid').map (setBal uid b) := by
  unfold findUser writeBalance
  have hp : ((fun u : UserRow => u.telegram_id == uid') ∘ setBal uid b)
      = (fun u : UserRow => u.telegram_id == uid') := by
    funext u
    simp [Function.comp, setBal_id]
  rw [List.find?_map, hp]

theorem userExists_writeBalance (db : DB) (uid uid' : Nat) (b : ℚ) :
    userExists (writeBalance db uid b) uid' = userExists db uid' := by
  unfold userExists
  rw [findUser_writeBalance]
  cases findUser db uid' <;> rfl

theorem findUser_telegram_id (db : DB) (uid : Nat) (u : UserRow)
    (h : findUser db uid = some u) : u.telegram_id = uid := by
  unfold findUser at h
  have := List.find?_some h
  simpa using this

theorem get_balance_writeBalance_self (db : DB) (uid : Nat) (b : ℚ)
    (hu : userExists db uid = true) : get_balance (writeBalance db uid b) uid = b := by
  unfold userExists at hu
  obtain ⟨u, hu'⟩ := Option.isSome_iff_exists.mp hu
  have hid : u.telegram_id = uid := findUser_telegram_id db uid u hu'
  unfold get_balance
  rw [findUser_writeBalance, hu']
  simp [setBal, hid]

theorem writeBalance_absent (db : DB) (uid : Nat) (b : ℚ)
    (h : findUser db uid = none) : writeBalance db uid b = db := by
  unfold findUser at h
  rw [List.find?_eq_none] at h
  unfold writeBalance
  have hmap : db.users.map (setBal uid b) = db.users := by
    have : ∀ u ∈ db.users, setBal uid b u = u := by
      intro u hu
      unfold setBal
      rw [if_neg]
      intro hcontra
      exact h u hu (by simpa using hcontra)
    calc db.users.map (setBal uid b) = db.users.map id := List.map_congr_left this
      _ = db.users := List.map_id db.users
  rw [hmap]

theorem nonnegList_writeBalance (db : DB) (uid : Nat) (b : ℚ)
    (h : NonnegDB db) (hb : 0 ≤ b) : NonnegDB (writeBalance db uid b) := by
  intro u hu
  unfold writeBalance at hu
  simp only [List.mem_map] at hu
  obtain ⟨v, hv, rfl⟩ := hu
  by_cases hid : v.telegram_id = uid <;> simp only [setBal, hid, if_pos, if_neg, if_true, if_false]
  · exact hb
  · exact h v hv

/-! ## C3 / C10: the balance mutator -/

/-- C3: on an existing users row the mutator computes the new balance
exactly; a negative outcome fails leaving the store untouched, otherwise
the new balance is stored and success returned; consequently over any
sequence of cent-valued deltas the final balance is the initial balance
plus the sum of the successful deltas, and a non-negative balance stays
non-negative at every commit. -/
theorem C3_balance_mutator :
    (∀ (db : DB) (uid : Nat) (d : ℚ), userExists db uid = true →
      IsCents (get_balance db uid) → IsCents d →
      ((update_balance db uid d).1 = false →
        get_balance db uid + d < 0 ∧ (update_balance db uid d).2 = db) ∧
      ((update_balance db uid d).1 = true →
        0 ≤ get_balance db uid + d ∧
        get_balance (update_balance db uid d).2 uid = get_balance db uid + d)) ∧
    (∀ (ds : List ℚ) (db : DB) (uid : Nat), userExists db uid = true →
      IsCents (get_balance db uid) → (∀ d ∈ ds, IsCents d) →
      get_balance (runDeltas db uid ds).1 uid = get_balance db uid + (runDeltas db uid ds).2 ∧
      (0 ≤ get_balance db uid → 0 ≤ get_balance (runDeltas db uid ds).1 uid)) := by
  have single : ∀ (db : DB) (uid : Nat) (d : ℚ), userExists db uid = true →
      IsCents (get_balance db uid) → IsCents d →
      ((update_balance db uid d).1 = false →
        get_balance db uid + d < 0 ∧ (update_balance db uid d).2 = db) ∧
      ((update_balance db uid d).1 = true →
        0 ≤ get_balance db uid + d ∧
        get_balance (update_balance db uid d).2 uid = get_balance db uid + d) := by
    intro db uid d hu hc hd
    by_cases hneg : get_balance db uid + d < 0
    · constructor
      · intro _
        refine ⟨hneg, ?_⟩
        simp [update_balance, hneg]
      · intro htrue
        simp [update_balance, hneg] at htrue
    · constructor
      · intro hfalse
        simp [update_balance, hneg] at hfalse
      · intro _
        refine ⟨not_lt.mp hneg, ?_⟩
        have hw : get_balance (update_balance db uid d).2 uid
            = round2aw (get_balance db uid + d) := by
          simp only [update_balance, if_neg hneg]
          exact get_balance_writeBalance_self db uid _ hu
        rw [hw, IsCents.round2aw_eq (hc.add hd)]
  refine ⟨single, ?_⟩
  intro ds
  induction ds with
  | nil =>
      intro db uid _ _ _
      constructor
      · simp [runDeltas]
      · intro h0
        simpa [runDeltas] using h0
  | cons d rest ih =>
      intro db uid hu hc hds
      have hd : IsCents d := hds d (List.mem_cons_self d rest)
      have hrest : ∀ x ∈ rest, IsCents x := fun x hx => hds x (List.mem_cons_of_mem d hx)
      by_cases hneg : get_balance db uid + d < 0
      · have hfail : update_balance db uid d = (false, db) := by
          simp [update_balance, hneg]
        have := ih db uid hu hc hrest
        constructor
        · simp only [runDeltas, hfail]
          rw [this.1]
          norm_num
        · intro h0
          simp only [runDeltas, hfail]
          exact this.2 h0
      · have hok : update_balance db uid d
            = (true, writeBalance db uid (round2aw (get_balance db uid + d))) := by
          simp [update_balance, hneg]
        have hbal : get_balance (update_balance db uid d).2 uid = get_balance db uid + d := by
          rw [hok]
          show get_balance (writeBalance db uid _) uid = _
          rw [get_balance_writeBalance_self db uid _ hu, IsCents.round2aw_eq (hc.add hd)]
        have hu' : userExists (update_balance db uid d).2 uid = true := by
          rw [hok]
          show userExists (writeBalance db uid _) uid = true
          rw [userExists_writeBalance]
          exact hu
        have hc' : IsCents (get_balance (update_balance db uid d).2 uid) := by
          rw [hbal]
          exact hc.add hd
        have := ih (update_balance db uid d).2 uid hu' hc' hrest
        constructor
        · simp only [runDeltas]
          rw [this.1, hbal, hok]
          norm_num
          try ring
        · intro _
          simp only [runDeltas]
          refine this.2 ?_
          rw [hbal]
          exact not_lt.mp hneg

/-- Witness for C3 on the concrete store: user 7 starts at 0.00; the
sequence +5.00, −100.00 (rejected), −2.00 ends at 3.00 = 0 + (5 − 2). -/
theorem C3_balance_mutator_witness :
    get_balance (runDeltas dbEx 7 [5, -100, -2]).1 7
      = get_balance dbEx 7 + (runDeltas dbEx 7 [5, -100, -2]).2 ∧
    (0 ≤ get_balance dbEx 7 → 0 ≤ get_balance (runDeltas dbEx 7 [5, -100, -2]).1 7) :=
  C3_balance_mutator.2 [5, -100, -2] dbEx 7 (by decide)
    (by
      show IsCents (get_balance dbEx 7)
      have : get_balance dbEx 7 = 0 := by simp [get_balance, findUser, dbEx]
      rw [this]
      exact ⟨0, by norm_num⟩)
    (by
      intro d hd
      simp only [List.mem_cons, List.not_mem_nil, or_false] at hd
      rcases hd with rfl | rfl | rfl
      · exact ⟨500, by norm_num⟩
      · exact ⟨-10000, by norm_num⟩
      · exact ⟨-200, by norm_num⟩)

/-- C10: calling the mutator for a user id with no `users` row treats the
current balance as 0.00: a negative delta fails, a non-negative delta
reports success, and in both cases no stored state changes. -/
theorem C10_absent_user (db : DB) (uid : Nat) (d : ℚ)
    (h : findUser db uid = none) :
    (d < 0 → update_balance db uid d = (false, db)) ∧
    (0 ≤ d → update_balance db uid d = (true, db)) := by
  have hbal : get_balance db uid = 0 := by
    unfold get_balance
    rw [h]
    rfl
  constructor
  · intro hd
    have : get_balance db uid + d < 0 := by rw [hbal]; linarith
    simp [update_balance, this]
  · intro hd
    have hnn : ¬ get_balance db uid + d < 0 := by rw [hbal]; linarith
    simp only [update_balance, if_neg hnn]
    rw [writeBalance_absent db uid _ h]

/-- Witness for C10: user 99 has no row in the concrete store; a debit of
3.00 fails and a credit of 4.00 "succeeds", both leaving the store as is. -/
theorem C10_absent_user_witness :
    update_balance dbEx 99 (-3) = (false, dbEx) ∧ update_balance dbEx 99 4 = (true, dbEx) :=
  ⟨(C10_absent_user dbEx 99 (-3) (by decide)).1 (by norm_num),
   (C10_absent_user dbEx 99 4 (by decide)).2 (by norm_num)⟩

/-! ## C4: the non-negativity invariant -/

theorem update_balance_nonneg (db : DB) (uid : Nat) (d : ℚ) (h : NonnegDB db) :
    NonnegDB (update_balance db uid d).2 := by
  by_cases hneg : get_balance db uid + d < 0
  · simpa [update_balance, hneg] using h
  · simp only [update_balance, if_neg hneg]
    exact nonnegList_writeBalance db uid _ h (round2aw_nonneg _ (not_lt.mp hneg))

theorem scopedUpdateBalance_users_nonneg (s : Scope) (uid : Nat) (d : ℚ) (f : Bool)
    (h : NonnegDB s.pending) : NonnegDB ((scopedUpdateBalance s uid d f).2).pending := by
  simp only [scopedUpdateBalance]
  split
  · exact h
  · split
    · exact h
    · exact nonnegList_writeBalance s.pending uid _ h
        (round2aw_nonneg _ (not_lt.mp (by assumption)))

theorem scopedRecord_users (s : Scope) (uid : Nat) (ty : String) (amount : ℚ)
    (status : String) (pk mp notes : Option String) (f : Bool) :
    (((scopedRecord s uid ty amount status pk mp notes f).2).pending).users
      = s.pending.users := by
  unfold scopedRecord record_transaction
  split <;> rfl

theorem scopedUpdateStatus_users (s : Scope) (tid : Nat) (st : String)
    (mp? notes? : Option String) (f : Bool) :
    (((scopedUpdateStatus s tid st mp? notes? f).2).pending).users = s.pending.users := by
  unfold scopedUpdateStatus update_transaction_status
  split <;> rfl

theorem commitScope_nonneg (orig : DB) (s : Scope) (h1 : NonnegDB orig)
    (h2 : NonnegDB s.pending) : NonnegDB (commitScope orig s) := by
  unfold commitScope
  split
  · exact h1
  · exact h2

theorem scopedRecord_nonneg (s : Scope) (uid : Nat) (ty : String) (amount : ℚ)
    (status : String) (pk mp notes : Option String) (f : Bool)
    (h : NonnegDB s.pending) :
    NonnegDB (((scopedRecord s uid ty amount status pk mp notes f).2).pending) := by
  intro u hu
  rw [scopedRecord_users] at hu
  exact h u hu

theorem scopedUpdateStatus_nonneg (s : Scope) (tid : Nat) (st : String)
    (mp? notes? : Option String) (f : Bool) (h : NonnegDB s.pending) :
    NonnegDB (((scopedUpdateStatus s tid st mp? notes? f).2).pending) := by
  intro u hu
  rw [scopedUpdateStatus_users] at hu
  exact h u hu

theorem processarRun_nonneg (cfg : Config) (db : DB) (tx : TxRow) (f1 f2 f3 : Bool)
    (h : NonnegDB db) : NonnegDB (processarRun cfg db tx f1 f2 f3).2 := by
  simp only [processarRun]
  split
  · exact h
  · exact commitScope_nonneg db _ h
      (scopedUpdateStatus_nonneg _ _ _ _ _ _
        (scopedRecord_nonneg _ _ _ _ _ _ _ _ _
          (scopedUpdateBalance_users_nonneg _ _ _ _ h)))

theorem create_user_nonneg (db : DB) (uid : Nat) (h : NonnegDB db) :
    NonnegDB (create_user_if_not_exists db uid) := by
  unfold create_user_if_not_exists
  split
  · exact h
  · intro u hu
    rcases List.mem_append.mp hu with h1 | h1
    · exact h u h1
    · simp only [List.mem_singleton] at h1
      rw [h1]

theorem handle_saque_atomic_nonneg (db : DB) (uid : Nat) (chave : String)
    (gross net feeF : ℚ) (fD fW fF : Bool) (h : NonnegDB db) :
    NonnegDB (handle_saque_atomic db uid chave gross net feeF fD fW fF) := by
  simp only [handle_saque_atomic]
  split
  · exact h
  · exact commitScope_nonneg db _ h
      (scopedRecord_nonneg _ _ _ _ _ _ _ _ _
        (scopedRecord_nonneg _ _ _ _ _ _ _ _ _
          (scopedUpdateBalance_users_nonneg _ _ _ _ h)))

theorem handle_saque_nonneg (cfg : Config) (db : DB) (uid : Nat) (chave : String)
    (gross : ℚ) (fD fW fF : Bool) (h : NonnegDB db) :
    NonnegDB (handle_saque cfg db uid chave gross fD fW fF) := by
  simp only [handle_saque]
  have h0 : NonnegDB (create_user_if_not_exists db uid) := create_user_nonneg db uid h
  split_ifs <;> first
    | exact h0
    | exact handle_saque_atomic_nonneg _ uid chave gross _ _ fD fW fF h0

theorem admin_set_balance_nonneg (db : DB) (uid : Nat) (nb : ℚ) (h : NonnegDB db)
    (hnb : 0 ≤ nb) : NonnegDB (admin_set_balance db uid nb).2 := by
  unfold admin_set_balance
  split
  · show NonnegDB (record_transaction _ _ _ _ _ _ _ _).2
    intro u hu
    exact nonnegList_writeBalance db uid _ h (round2aw_nonneg nb hnb) u hu
  · exact h

/-- C4 amended: every balance mutation that goes through the guarded
mutator — direct credit/debit, deposit confirmation, the withdrawal flow
(with or without injected failures) — preserves non-negativity of all
committed balances; the admin balance-set operation writes the supplied
value unchecked and preserves the invariant only when that value is
non-negative. -/
theorem C4_nonneg_preservation :
    (∀ (db : DB) (uid : Nat) (d : ℚ), NonnegDB db → NonnegDB (update_balance db uid d).2) ∧
    (∀ (cfg : Config) (db : DB) (tx : TxRow) (f1 f2 f3 : Bool), NonnegDB db →
      NonnegDB (processarRun cfg db tx f1 f2 f3).2) ∧
    (∀ (cfg : Config) (db : DB) (uid : Nat) (chave : String) (gross : ℚ)
      (fD fW fF : Bool), NonnegDB db →
      NonnegDB (handle_saque cfg db uid chave gross fD fW fF)) ∧
    (∀ (db : DB) (uid : Nat) (nb : ℚ), NonnegDB db → 0 ≤ nb →
      NonnegDB (admin_set_balance db uid nb).2) :=
  ⟨fun db uid d h => update_balance_nonneg db uid d h,
   fun cfg db tx f1 f2 f3 h => processarRun_nonneg cfg db tx f1 f2 f3 h,
   fun cfg db uid chave gross fD fW fF h =>
     handle_saque_nonneg cfg db uid chave gross fD fW fF h,
   fun db uid nb h hnb => admin_set_balance_nonneg db uid nb h hnb⟩

theorem dbEx_nonneg : NonnegDB dbEx := by
  intro u hu
  simp only [dbEx, List.mem_singleton] at hu
  rw [hu]

/-- Witness for C4 at concrete inputs: the invariant holds on the store
after a credit, a deposit confirmation, a withdrawal and an admin set to
a non-negative value. -/
theorem C4_nonneg_preservation_witness :
    NonnegDB (update_balance dbEx 7 5).2 ∧
    NonnegDB (processarRun cfgEx dbEx txEx false false false).2 ∧
    NonnegDB (handle_saque cfgEx dbEx 7 "cpf:1" 50 false false false) ∧
    NonnegDB (admin_set_balance dbEx 7 3).2 :=
  ⟨C4_nonneg_preservation.1 dbEx 7 5 dbEx_nonneg,
   C4_nonneg_preservation.2.1 cfgEx dbEx txEx false false false dbEx_nonneg,
   C4_nonneg_preservation.2.2.1 cfgEx dbEx 7 "cpf:1" 50 false false false dbEx_nonneg,
   C4_nonneg_preservation.2.2.2 dbEx 7 3 dbEx_nonneg (by norm_num)⟩

/-- Counterexample for C4 as stated: `admin_set_balance` accepts a
negative value; on a store satisfying the invariant, setting user 7's
balance to −5.00 reports success and commits a negative balance. -/
theorem C4_admin_negative_counterexample :
    NonnegDB dbEx ∧ (admin_set_balance dbEx 7 (-5)).1 = true ∧
      ¬ NonnegDB (admin_set_balance dbEx 7 (-5)).2 := by
  have hex : userExists dbEx 7 = true := by decide
  have hround : round2aw (-5 : ℚ) = -5 := by
    have h := round2aw_intDiv (-500)
    norm_num at h
    exact h
  have husers : ((admin_set_balance dbEx 7 (-5)).2).users = [⟨7, round2aw (-5)⟩] := rfl
  refine ⟨dbEx_nonneg, rfl, ?_⟩
  intro hcontra
  have hmem : (⟨7, round2aw (-5)⟩ : UserRow) ∈ ((admin_set_balance dbEx 7 (-5)).2).users := by
    rw [husers]
    exact List.mem_singleton_self _
  have h2 := hcontra _ hmem
  rw [hround] at h2
  have h3 : (0:ℚ) ≤ -5 := h2
  norm_num at h3

/-! ## Transaction lookup lemmas -/

theorem applyStatusUpdate_id (tid : Nat) (st : String) (mp? notes? : Option String)
    (t : TxRow) : (applyStatusUpdate tid st mp? notes? t).id = t.id := by
  unfold applyStatusUpdate
  split <;> rfl

theorem applyStatusUpdate_status_self (tid : Nat) (st : String)
    (mp? notes? : Option String) (t : TxRow) (h : t.id = tid) :
    (applyStatusUpdate tid st mp? notes? t).status = st := by
  unfold applyStatusUpdate
  rw [if_pos h]

theorem get_transaction_details_id (db : DB) (tid : Nat) (t : TxRow)
    (h : get_transaction_details db tid = some t) : t.id = tid := by
  unfold get_transaction_details at h
  have := List.find?_some h
  simpa using this

theorem get_transaction_details_update (db : DB) (tid : Nat) (st : String)
    (mp? notes? : Option String) (tid' : Nat) :
    get_transaction_details (update_transaction_status db tid st mp? notes?).2 tid'
      = (get_transaction_details db tid').map (applyStatusUpdate tid st mp? notes?) := by
  unfold get_transaction_details update_transaction_status
  have hp : ((fun t : TxRow => t.id == tid') ∘ applyStatusUpdate tid st mp? notes?)
      = fun t : TxRow => t.id == tid' := by
    funext t
    simp [Function.comp, applyStatusUpdate_id]
  rw [List.find?_map, hp]

/-! ## C8: no terminal-status guard in update_transaction_status -/

/-- C8 amended: `update_transaction_status` overwrites the status of the
addressed row unconditionally and reports success — there is no guard
against leaving a terminal status, so a transition out of a terminal
status is possible; what does hold is that the addressed row always ends
in exactly the requested status. -/
theorem C8_status_overwrite (db : DB) (tid : Nat) (st : String)
    (mp? notes? : Option String) (t : TxRow)
    (h : get_transaction_details db tid = some t) :
    (update_transaction_status db tid st mp? notes?).1 = true ∧
    get_transaction_details (update_transaction_status db tid st mp? notes?).2 tid
      = some (applyStatusUpdate tid st mp? notes? t) ∧
    (applyStatusUpdate tid st mp? notes? t).status = st := by
  refine ⟨rfl, ?_, ?_⟩
  · rw [get_transaction_details_update, h]
    rfl
  · exact applyStatusUpdate_status_self tid st mp? notes? t (get_transaction_details_id db tid t h)

/-- The store for the C8 scenario: one deposit already in the terminal
status PAGO. -/
def dbPaid : DB := ⟨[⟨7, 0⟩], [⟨1, 7, "DEPOSIT", 100, STATUS_DEPOSITO_PAGO, none, none, none⟩], 2⟩

/-- Witness for C8 (amended) at a concrete input: updating the PAID
deposit's status stores exactly the requested status. -/
theorem C8_status_overwrite_witness :
    (update_transaction_status dbPaid 1 STATUS_CONCLUIDO none none).1 = true ∧
    get_transaction_details (update_transaction_status dbPaid 1 STATUS_CONCLUIDO none none).2 1
      = some (applyStatusUpdate 1 STATUS_CONCLUIDO none none
          ⟨1, 7, "DEPOSIT", 100, STATUS_DEPOSITO_PAGO, none, none, none⟩) ∧
    (applyStatusUpdate 1 STATUS_CONCLUIDO none none
        ⟨1, 7, "DEPOSIT", 100, STATUS_DEPOSITO_PAGO, none, none, none⟩).status
      = STATUS_CONCLUIDO :=
  C8_status_overwrite dbPaid 1 STATUS_CONCLUIDO none none
    ⟨1, 7, "DEPOSIT", 100, STATUS_DEPOSITO_PAGO, none, none, none⟩ rfl

/-- Counterexample for C8 as stated: the deposit of `dbPaid` is in the
terminal status PAGO, yet one `update_transaction_status` call moves it
back to the pending status and reports success — a regression out of a
terminal status. -/
theorem C8_regression_counterexample :
    (get_transaction_details dbPaid 1).map (fun t => t.status) = some STATUS_DEPOSITO_PAGO ∧
    (update_transaction_status dbPaid 1 STATUS_DEPOSITO_PENDENTE none none).1 = true ∧
    (get_transaction_details
        (update_transaction_status dbPaid 1 STATUS_DEPOSITO_PENDENTE none none).2 1).map
        (fun t => t.status) = some STATUS_DEPOSITO_PENDENTE ∧
    STATUS_DEPOSITO_PENDENTE ≠ STATUS_DEPOSITO_PAGO :=
  ⟨rfl, rfl, rfl, by decide⟩

/-! ## Successful deposit confirmation, characterized -/

theorem update_balance_transactions (db : DB) (uid : Nat) (d : ℚ) :
    ((update_balance db uid d).2).transactions = db.transactions := by
  simp only [update_balance]
  split <;> rfl

theorem update_balance_next_id (db : DB) (uid : Nat) (d : ℚ) :
    ((update_balance db uid d).2).next_id = db.next_id := by
  simp only [update_balance]
  split <;> rfl

theorem scopedUpdateBalance_mkF (db : DB) (uid : Nat) (d : ℚ) :
    (scopedUpdateBalance ⟨db, false⟩ uid d false).2
      = ⟨(update_balance db uid d).2, false⟩ := by
  simp only [scopedUpdateBalance, update_balance]
  rw [if_neg (by simp : ¬ ((false || false) = true))]
  split_ifs <;> rfl

theorem scopedRecord_mkF (db : DB) (uid : Nat) (ty : String) (amount : ℚ)
    (status : String) (pk mp notes : Option String) :
    scopedRecord ⟨db, false⟩ uid ty amount status pk mp notes false
      = (some (record_transaction db uid ty amount status pk mp notes).1,
         ⟨(record_transaction db uid ty amount status pk mp notes).2, false⟩) := by
  simp only [scopedRecord]
  rw [if_neg (by simp : ¬ ((false || false) = true))]

theorem scopedUpdateStatus_mkF (db : DB) (tid : Nat) (st : String)
    (mp? notes? : Option String) :
    scopedUpdateStatus ⟨db, false⟩ tid st mp? notes? false
      = (true, ⟨(update_transaction_status db tid st mp? notes?).2, false⟩) := by
  simp only [scopedUpdateStatus]
  rw [if_neg (by simp : ¬ ((false || false) = true))]

theorem commitScope_mkF (orig X : DB) : commitScope orig ⟨X, false⟩ = X := rfl

/-- The FEE row inserted by a successful deposit confirmation. -/
def feeRowOf (cfg : Config) (db : DB) (tx : TxRow) : TxRow :=
  ⟨db.next_id, tx.user_telegram_id, "FEE",
    round2aw (tx.amount * cfg.TAXA_DEPOSITO_PERCENTUAL), STATUS_CONCLUIDO,
    none, none, some (depFeeNote tx.id)⟩

theorem processar_pending (cfg : Config) (db : DB) (tx : TxRow)
    (hst : tx.status = STATUS_DEPOSITO_PENDENTE) :
    processar cfg db tx
      = (true,
         (update_transaction_status
            (record_transaction
              (update_balance db tx.user_telegram_id
                (tx.amount - tx.amount * cfg.TAXA_DEPOSITO_PERCENTUAL)).2
              tx.user_telegram_id "FEE" (tx.amount * cfg.TAXA_DEPOSITO_PERCENTUAL)
              STATUS_CONCLUIDO none none (some (depFeeNote tx.id))).2
            tx.id STATUS_DEPOSITO_PAGO none none).2) := by
  have hguard : ¬ tx.status ≠ STATUS_DEPOSITO_PENDENTE := by simp [hst]
  simp only [processar, processarRun, if_neg hguard]
  rw [scopedUpdateBalance_mkF, scopedRecord_mkF, scopedUpdateStatus_mkF]
  rw [commitScope_mkF]

theorem processar_transactions (cfg : Config) (db : DB) (tx : TxRow)
    (hst : tx.status = STATUS_DEPOSITO_PENDENTE) :
    (processar cfg db tx).2.transactions
      = (db.transactions ++ [feeRowOf cfg db tx]).map
          (applyStatusUpdate tx.id STATUS_DEPOSITO_PAGO none none) := by
  rw [processar_pending cfg db tx hst]
  show (update_transaction_status _ _ _ _ _).2.transactions = _
  simp only [update_transaction_status, record_transaction, feeRowOf,
    update_balance_transactions, update_balance_next_id]

theorem processar_users (cfg : Config) (db : DB) (tx : TxRow)
    (hst : tx.status = STATUS_DEPOSITO_PENDENTE) :
    (processar cfg db tx).2.users
      = (update_balance db tx.user_telegram_id
          (tx.amount - tx.amount * cfg.TAXA_DEPOSITO_PERCENTUAL)).2.users := by
  rw [processar_pending cfg db tx hst]
  show (update_transaction_status _ _ _ _ _).2.users = _
  simp only [update_transaction_status, record_transaction]

theorem processar_lookup (cfg : Config) (db : DB) (tx : TxRow)
    (hst : tx.status = STATUS_DEPOSITO_PENDENTE)
    (hfetch : get_transaction_details db tx.id = some tx) :
    get_transaction_details (processar cfg db tx).2 tx.id
      = some (applyStatusUpdate tx.id STATUS_DEPOSITO_PAGO none none tx) := by
  unfold get_transaction_details at hfetch ⊢
  rw [processar_transactions cfg db tx hst]
  have hp : ((fun t : TxRow => t.id == tx.id)
      ∘ applyStatusUpdate tx.id STATUS_DEPOSITO_PAGO none none)
      = fun t : TxRow => t.id == tx.id := by
    funext t
    simp [Function.comp, applyStatusUpdate_id]
  rw [List.map_append, List.find?_append, List.find?_map, hp, hfetch]
  rfl

/-! ## C2: idempotency of deposit confirmation -/

theorem get_balance_users_eq (db1 db2 : DB) (uid : Nat) (h : db1.users = db2.users) :
    get_balance db1 uid = get_balance db2 uid := by
  unfold get_balance findUser
  rw [h]

theorem userExists_users_eq (db1 db2 : DB) (uid : Nat) (h : db1.users = db2.users) :
    userExists db1 uid = userExists db2 uid := by
  unfold userExists findUser
  rw [h]

theorem update_balance_userExists (db : DB) (uid uid' : Nat) (d : ℚ) :
    userExists (update_balance db uid d).2 uid' = userExists db uid' := by
  simp only [update_balance]
  split
  · rfl
  · exact userExists_writeBalance db uid uid' _

theorem update_balance_get (db : DB) (uid : Nat) (d : ℚ)
    (hu : userExists db uid = true) (hnn : ¬ get_balance db uid + d < 0) :
    get_balance (update_balance db uid d).2 uid = round2aw (get_balance db uid + d) := by
  simp only [update_balance, if_neg hnn]
  exact get_balance_writeBalance_self db uid _ hu

/-- C2 amended: the idempotency guard checks the status field of the
caller-supplied snapshot row, not a re-read inside the atomic scope.  A
call whose snapshot is not pending is a no-op returning False with no
side effect, and a second invocation whose snapshot is re-fetched from
the store after a successful confirmation finds the deposit PAGO and is
such a no-op — the fetch-process-refetch pattern credits exactly once. -/
theorem C2_refetched_second_call (cfg : Config) (db : DB) (tx : TxRow)
    (hfetch : get_transaction_details db tx.id = some tx) :
    (tx.status ≠ STATUS_DEPOSITO_PENDENTE → processar cfg db tx = (false, db)) ∧
    (∀ t2, get_transaction_details (processar cfg db tx).2 tx.id = some t2 →
      processar cfg (processar cfg db tx).2 t2 = (false, (processar cfg db tx).2)) := by
  have guard : ∀ (db' : DB) (t : TxRow), t.status ≠ STATUS_DEPOSITO_PENDENTE →
      processar cfg db' t = (false, db') := by
    intro db' t h
    simp only [processar, processarRun, if_pos h]
  refine ⟨guard db tx, ?_⟩
  intro t2 h2
  by_cases hst : tx.status = STATUS_DEPOSITO_PENDENTE
  · have hl := processar_lookup cfg db tx hst hfetch
    rw [hl] at h2
    injection h2 with h2'
    subst h2'
    refine guard _ _ ?_
    rw [applyStatusUpdate_status_self tx.id _ none none tx rfl]
    decide
  · have hfst : processar cfg db tx = (false, db) := guard db tx hst
    rw [hfst] at h2 ⊢
    dsimp only at h2 ⊢
    rw [hfetch] at h2
    injection h2 with h2'
    subst h2'
    exact guard db tx hst

/-- Witness for C2 (amended): on the concrete store, re-fetching the
confirmed deposit and invoking the processor again is a no-op. -/
theorem C2_refetched_second_call_witness :
    processar cfgEx (processar cfgEx dbEx txEx).2
        (applyStatusUpdate txEx.id STATUS_DEPOSITO_PAGO none none txEx)
      = (false, (processar cfgEx dbEx txEx).2) :=
  (C2_refetched_second_call cfgEx dbEx txEx rfl).2 _
    (processar_lookup cfgEx dbEx txEx rfl rfl)

/-- Counterexample for C2 as stated: the processor does not re-read the
status inside the atomic scope, so feeding it the same stale PENDING
snapshot twice — the race the claimed in-scope re-check is supposed to
prevent — passes the guard again: after the first call user 7 holds
89.00, the second call reports success instead of "already processed"
and credits again, leaving 178.00. -/
theorem C2_stale_snapshot_counterexample :
    get_balance (processar cfgEx dbEx txEx).2 7 = 89 ∧
    (processar cfgEx (processar cfgEx dbEx txEx).2 txEx).1 = true ∧
    get_balance (processar cfgEx (processar cfgEx dbEx txEx).2 txEx).2 7 = 178 := by
  have hst : txEx.status = STATUS_DEPOSITO_PENDENTE := rfl
  have hu1 : userExists dbEx 7 = true := by decide
  have hdelta : txEx.amount - txEx.amount * cfgEx.TAXA_DEPOSITO_PERCENTUAL = 89 := by
    norm_num [txEx, cfgEx]
  have hg0 : get_balance dbEx 7 = 0 := rfl
  have hr89 : round2aw (89 : ℚ) = 89 := by
    have h := round2aw_intDiv 8900
    norm_num at h
    exact h
  have hr178 : round2aw (178 : ℚ) = 178 := by
    have h := round2aw_intDiv 17800
    norm_num at h
    exact h
  have hid : txEx.user_telegram_id = 7 := rfl
  have h1 : get_balance (processar cfgEx dbEx txEx).2 7 = 89 := by
    rw [get_balance_users_eq _ _ 7 (processar_users cfgEx dbEx txEx hst), hid]
    rw [update_balance_get dbEx 7 (txEx.amount - txEx.amount * cfgEx.TAXA_DEPOSITO_PERCENTUAL)
      hu1 (by rw [hg0, hdelta]; norm_num)]
    rw [hg0, hdelta]
    norm_num [hr89]
  refine ⟨h1, ?_, ?_⟩
  · simp only [processar, processarRun]
    rw [if_neg (by decide : ¬ txEx.status ≠ STATUS_DEPOSITO_PENDENTE)]
  · have hu2 : userExists (processar cfgEx dbEx txEx).2 7 = true := by
      rw [userExists_users_eq _ _ 7 (processar_users cfgEx dbEx txEx hst),
        update_balance_userExists]
      exact hu1
    rw [get_balance_users_eq _ _ 7
      (processar_users cfgEx (processar cfgEx dbEx txEx).2 txEx hst), hid]
    rw [update_balance_get (processar cfgEx dbEx txEx).2 7
      (txEx.amount - txEx.amount * cfgEx.TAXA_DEPOSITO_PERCENTUAL) hu2
      (by rw [h1, hdelta]; norm_num)]
    rw [h1, hdelta]
    norm_num [hr178]

/-! ## C5: deposit fee and net credit -/

/-- C5 amended: confirming a PENDING deposit of amount A with fee rate r
appends exactly one FEE row whose stored amount is A·r rounded half-up to
cents with status CONCLUIDO, marks the fetched deposit row PAGO, and
credits the user's balance with A − A·r rounded half-up to cents — which
can differ by one cent from A minus the stored fee when A·r falls on a
half-cent (see the counterexample); for A = 100.00, r = 0.11 the fee is
11.00 and the credit 89.00 exactly. -/
theorem C5_deposit_confirmation (cfg : Config) (db : DB) (tx : TxRow)
    (hst : tx.status = STATUS_DEPOSITO_PENDENTE)
    (hu : userExists db tx.user_telegram_id = true)
    (hfetch : get_transaction_details db tx.id = some tx)
    (hnn : ¬ get_balance db tx.user_telegram_id
        + (tx.amount - tx.amount * cfg.TAXA_DEPOSITO_PERCENTUAL) < 0) :
    (processar cfg db tx).2.transactions
      = (db.transactions ++ [feeRowOf cfg db tx]).map
          (applyStatusUpdate tx.id STATUS_DEPOSITO_PAGO none none) ∧
    (feeRowOf cfg db tx).amount = round2aw (tx.amount * cfg.TAXA_DEPOSITO_PERCENTUAL) ∧
    (feeRowOf cfg db tx).status = STATUS_CONCLUIDO ∧
    get_transaction_details (processar cfg db tx).2 tx.id
      = some (applyStatusUpdate tx.id STATUS_DEPOSITO_PAGO none none tx) ∧
    (applyStatusUpdate tx.id STATUS_DEPOSITO_PAGO none none tx).status
      = STATUS_DEPOSITO_PAGO ∧
    get_balance (processar cfg db tx).2 tx.user_telegram_id
      = round2aw (get_balance db tx.user_telegram_id
          + (tx.amount - tx.amount * cfg.TAXA_DEPOSITO_PERCENTUAL)) := by
  refine ⟨processar_transactions cfg db tx hst, rfl, rfl,
    processar_lookup cfg db tx hst hfetch,
    applyStatusUpdate_status_self tx.id _ none none tx rfl, ?_⟩
  rw [get_balance_users_eq _ _ _ (processar_users cfg db tx hst)]
  exact update_balance_get db tx.user_telegram_id _ hu hnn

/-- Witness for C5 at the spec's scenario (A = 100.00, r = 0.11): the
resulting ledger holds the deposit marked PAGO and one FEE row of 11.00
with status CONCLUIDO, and 89.00 was credited. -/
theorem C5_deposit_confirmation_witness :
    (processar cfgEx dbEx txEx).2.transactions
      = [⟨1, 7, "DEPOSIT", 100, STATUS_DEPOSITO_PAGO, none, some "mp1", none⟩,
         ⟨2, 7, "FEE", 11, STATUS_CONCLUIDO, none, none, some (depFeeNote 1)⟩] ∧
    get_balance (processar cfgEx dbEx txEx).2 7 = 89 := by
  have hdelta : txEx.amount - txEx.amount * cfgEx.TAXA_DEPOSITO_PERCENTUAL = 89 := by
    norm_num [txEx, cfgEx]
  have h := C5_deposit_confirmation cfgEx dbEx txEx rfl (by decide) rfl
    (by
      rw [show txEx.user_telegram_id = 7 from rfl,
        show get_balance dbEx 7 = 0 from rfl, hdelta]
      norm_num)
  have hr11 : round2aw (11 : ℚ) = 11 := by
    have hq := round2aw_intDiv 1100
    norm_num at hq
    exact hq
  have hr89 : round2aw (89 : ℚ) = 89 := by
    have hq := round2aw_intDiv 8900
    norm_num at hq
    exact hq
  constructor
  · rw [h.1]
    have hfee : feeRowOf cfgEx dbEx txEx
        = ⟨2, 7, "FEE", 11, STATUS_CONCLUIDO, none, none, some (depFeeNote 1)⟩ := by
      simp only [feeRowOf, dbEx, txEx, cfgEx]
      have : (100 : ℚ) * (11/100) = 11 := by norm_num
      rw [this, hr11]
    rw [hfee]
    simp [dbEx, txEx, applyStatusUpdate, STATUS_DEPOSITO_PENDENTE, STATUS_DEPOSITO_PAGO]
  · have h6 := h.2.2.2.2.2
    rw [show txEx.user_telegram_id = 7 from rfl,
      show get_balance dbEx 7 = 0 from rfl, hdelta] at h6
    rw [h6]
    norm_num [hr89]

/-- The half-cent deposit for the C5 counterexample: amount 50.50. -/
def tx50 : TxRow := ⟨1, 7, "DEPOSIT", 5050/100, STATUS_DEPOSITO_PENDENTE, none, some "mp2", none⟩

/-- Store for the C5 counterexample. -/
def db50 : DB := ⟨[⟨7, 0⟩], [tx50], 2⟩

/-- Counterexample for C5 as stated: for A = 50.50, r = 0.11 the stored
fee is round-half-up(5.555) = 5.56 but the credited amount is
round-half-up(44.945) = 44.95 ≠ 50.50 − 5.56: the net credited is not
A minus the fee, because fee and net are rounded independently. -/
theorem C5_half_cent_counterexample :
    (feeRowOf cfgEx db50 tx50).amount = 556/100 ∧
    get_balance (processar cfgEx db50 tx50).2 7 = 4495/100 ∧
    (4495/100 : ℚ) ≠ tx50.amount - (feeRowOf cfgEx db50 tx50).amount := by
  have hfee : (feeRowOf cfgEx db50 tx50).amount = 556/100 := by
    show round2aw (tx50.amount * cfgEx.TAXA_DEPOSITO_PERCENTUAL) = 556/100
    have harg : tx50.amount * cfgEx.TAXA_DEPOSITO_PERCENTUAL = 1111/200 := by
      norm_num [tx50, cfgEx]
    rw [harg, round2aw_halfup (1111/200) 555 (by norm_num) (by push_cast; norm_num)
      (by push_cast; norm_num)]
    push_cast
    norm_num
  have hdelta : tx50.amount - tx50.amount * cfgEx.TAXA_DEPOSITO_PERCENTUAL = 8989/200 := by
    norm_num [tx50, cfgEx]
  have hcred : round2aw (8989/200 : ℚ) = 4495/100 := by
    rw [round2aw_halfup (8989/200) 4494 (by norm_num) (by push_cast; norm_num)
      (by push_cast; norm_num)]
    push_cast
    norm_num
  refine ⟨hfee, ?_, ?_⟩
  · rw [get_balance_users_eq _ _ 7 (processar_users cfgEx db50 tx50 rfl),
      show tx50.user_telegram_id = 7 from rfl]
    rw [update_balance_get db50 7 (tx50.amount - tx50.amount * cfgEx.TAXA_DEPOSITO_PERCENTUAL)
      (by decide) (by rw [show get_balance db50 7 = 0 from rfl, hdelta]; norm_num)]
    rw [show get_balance db50 7 = 0 from rfl, hdelta]
    rw [show (0:ℚ) + 8989/200 = 8989/200 by norm_num]
    exact hcred
  · rw [hfee, show tx50.amount = 5050/100 from rfl]
    norm_num

/-! ## C6: the withdrawal flow -/

theorem record_transaction_fst (db : DB) (uid : Nat) (ty : String) (a : ℚ)
    (st : String) (pk mp n : Option String) :
    (record_transaction db uid ty a st pk mp n).1 = db.next_id := rfl

theorem record_transaction_users (db : DB) (uid : Nat) (ty : String) (a : ℚ)
    (st : String) (pk mp n : Option String) :
    ((record_transaction db uid ty a st pk mp n).2).users = db.users := rfl

theorem record_transaction_next_id (db : DB) (uid : Nat) (ty : String) (a : ℚ)
    (st : String) (pk mp n : Option String) :
    ((record_transaction db uid ty a st pk mp n).2).next_id = db.next_id + 1 := rfl

theorem record_transaction_transactions (db : DB) (uid : Nat) (ty : String) (a : ℚ)
    (st : String) (pk mp n : Option String) :
    ((record_transaction db uid ty a st pk mp n).2).transactions
      = db.transactions ++ [⟨db.next_id, uid, ty, round2aw a, st, pk, mp, n⟩] := rfl

theorem scopedUpdateBalance_fst_mkF (db : DB) (uid : Nat) (d : ℚ)
    (hnn : ¬ get_balance db uid + d < 0) :
    (scopedUpdateBalance ⟨db, false⟩ uid d false).1 = true := by
  simp only [scopedUpdateBalance]
  rw [if_neg (by simp : ¬ ((false || false) = true)), if_neg hnn]

/-- The accepted withdrawal path, as the composition of the three store
operations run in the scope. -/
theorem handle_saque_accept (cfg : Config) (db : DB) (uid : Nat) (chave : String)
    (gross : ℚ) (hu : userExists db uid = true)
    (h1 : ¬ gross ≤ cfg.TAXA_SAQUE_FIXA)
    (h2 : ¬ round2he ((gross - cfg.TAXA_SAQUE_FIXA) / (1 + cfg.TAXA_SAQUE_PERCENTUAL))
        < cfg.LIMITE_MINIMO_SAQUE)
    (h3 : ¬ get_balance db uid < gross) :
    handle_saque cfg db uid chave gross false false false
      = (record_transaction
          (record_transaction (update_balance db uid (-gross)).2
            uid "WITHDRAWAL"
            (round2he ((gross - cfg.TAXA_SAQUE_FIXA) / (1 + cfg.TAXA_SAQUE_PERCENTUAL)))
            STATUS_EM_ANALISE (some chave) none none).2
          uid "FEE"
          (round2he (gross
            - round2he ((gross - cfg.TAXA_SAQUE_FIXA) / (1 + cfg.TAXA_SAQUE_PERCENTUAL))))
          STATUS_CONCLUIDO none none (some (wdFeeNote (some db.next_id)))).2 := by
  have hnn : ¬ get_balance db uid + -gross < 0 := by
    intro hc
    exact h3 (by linarith)
  simp only [handle_saque, create_user_exists db uid hu, if_neg h1, if_neg h2, if_neg h3]
  simp only [handle_saque_atomic]
  rw [scopedUpdateBalance_fst_mkF db uid (-gross) hnn]
  rw [if_neg (by norm_num : ¬ ((!true) = true))]
  rw [scopedUpdateBalance_mkF]
  rw [scopedRecord_mkF]
  dsimp only
  rw [scopedRecord_mkF]
  dsimp only
  rw [commitScope_mkF]
  rw [record_transaction_fst, update_balance_next_id]

/-- C6: the withdrawal flow rejects the request with no state change
unless the gross debit strictly exceeds the fixed fee, the rounded net
payable is at least the configured minimum and the balance covers the
gross debit; on acceptance it debits the gross amount and appends a
WITHDRAWAL row carrying the net amount with status EM ANÁLISE and a FEE
row carrying gross minus net with status CONCLUIDO, noted with the
withdrawal id. -/
theorem C6_withdrawal_flow (cfg : Config) (db : DB) (uid : Nat) (chave : String)
    (gross : ℚ) (hu : userExists db uid = true)
    (hcb : IsCents (get_balance db uid)) (hcg : IsCents gross) :
    ((gross ≤ cfg.TAXA_SAQUE_FIXA ∨
      round2he ((gross - cfg.TAXA_SAQUE_FIXA) / (1 + cfg.TAXA_SAQUE_PERCENTUAL))
        < cfg.LIMITE_MINIMO_SAQUE ∨
      get_balance db uid < gross) →
      handle_saque cfg db uid chave gross false false false = db) ∧
    (¬ gross ≤ cfg.TAXA_SAQUE_FIXA →
     ¬ round2he ((gross - cfg.TAXA_SAQUE_FIXA) / (1 + cfg.TAXA_SAQUE_PERCENTUAL))
        < cfg.LIMITE_MINIMO_SAQUE →
     ¬ get_balance db uid < gross →
      get_balance (handle_saque cfg db uid chave gross false false false) uid
        = get_balance db uid - gross ∧
      (handle_saque cfg db uid chave gross false false false).transactions
        = db.transactions ++
          [⟨db.next_id, uid, "WITHDRAWAL",
            round2he ((gross - cfg.TAXA_SAQUE_FIXA) / (1 + cfg.TAXA_SAQUE_PERCENTUAL)),
            STATUS_EM_ANALISE, some chave, none, none⟩,
           ⟨db.next_id + 1, uid, "FEE",
            gross - round2he ((gross - cfg.TAXA_SAQUE_FIXA) / (1 + cfg.TAXA_SAQUE_PERCENTUAL)),
            STATUS_CONCLUIDO, none, none, some (wdFeeNote (some db.next_id))⟩]) := by
  constructor
  · intro h
    simp only [handle_saque, create_user_exists db uid hu]
    by_cases hc1 : gross ≤ cfg.TAXA_SAQUE_FIXA
    · rw [if_pos hc1]
    · rw [if_neg hc1]
      by_cases hc2 : round2he ((gross - cfg.TAXA_SAQUE_FIXA) / (1 + cfg.TAXA_SAQUE_PERCENTUAL))
          < cfg.LIMITE_MINIMO_SAQUE
      · rw [if_pos hc2]
      · rw [if_neg hc2]
        by_cases hc3 : get_balance db uid < gross
        · rw [if_pos hc3]
        · rcases h with h | h | h
          · exact absurd h hc1
          · exact absurd h hc2
          · exact absurd h hc3
  · intro h1 h2 h3
    have hnn : ¬ get_balance db uid + -gross < 0 := by
      intro hc
      exact h3 (by linarith)
    have hwamt : round2aw (round2he ((gross - cfg.TAXA_SAQUE_FIXA)
        / (1 + cfg.TAXA_SAQUE_PERCENTUAL)))
        = round2he ((gross - cfg.TAXA_SAQUE_FIXA) / (1 + cfg.TAXA_SAQUE_PERCENTUAL)) :=
      (isCents_round2he _).round2aw_eq
    have hfamt : round2aw (round2he (gross
        - round2he ((gross - cfg.TAXA_SAQUE_FIXA) / (1 + cfg.TAXA_SAQUE_PERCENTUAL))))
        = gross - round2he ((gross - cfg.TAXA_SAQUE_FIXA) / (1 + cfg.TAXA_SAQUE_PERCENTUAL)) := by
      rw [(isCents_round2he _).round2aw_eq]
      exact (hcg.sub (isCents_round2he _)).round2he_eq
    rw [handle_saque_accept cfg db uid chave gross hu h1 h2 h3]
    constructor
    · rw [show get_balance (record_transaction (record_transaction
          (update_balance db uid (-gross)).2 uid "WITHDRAWAL"
          (round2he ((gross - cfg.TAXA_SAQUE_FIXA) / (1 + cfg.TAXA_SAQUE_PERCENTUAL)))
          STATUS_EM_ANALISE (some chave) none none).2 uid "FEE"
          (round2he (gross - round2he ((gross - cfg.TAXA_SAQUE_FIXA)
            / (1 + cfg.TAXA_SAQUE_PERCENTUAL))))
          STATUS_CONCLUIDO none none (some (wdFeeNote (some db.next_id)))).2 uid
          = get_balance (update_balance db uid (-gross)).2 uid from rfl]
      rw [update_balance_get db uid (-gross) hu hnn]
      rw [show get_balance db uid + -gross = get_balance db uid - gross by ring]
      exact (hcb.sub hcg).round2aw_eq
    · rw [record_transaction_transactions, record_transaction_transactions]
      rw [record_transaction_next_id, update_balance_next_id, update_balance_transactions]
      rw [hwamt, hfamt, List.append_assoc]
      rfl

/-- Store for the C6 scenario: user 7 with balance 100.00, no rows yet. -/
def dbW : DB := ⟨[⟨7, 100⟩], [], 2⟩

/-- Witness for C6 at the spec's scenario: balance 100.00, gross 100.00,
fixed fee 2.00, percentage fee 0.05 → net 93.33, fee 6.67, resulting
balance 0.00, one WITHDRAWAL row (93.33, EM ANÁLISE) and one FEE row
(6.67, CONCLUIDO). -/
theorem C6_withdrawal_flow_witness :
    get_balance (handle_saque cfgEx dbW 7 "cpf:1" 100 false false false) 7 = 0 ∧
    (handle_saque cfgEx dbW 7 "cpf:1" 100 false false false).transactions
      = [⟨2, 7, "WITHDRAWAL", 9333/100, STATUS_EM_ANALISE, some "cpf:1", none, none⟩,
         ⟨3, 7, "FEE", 667/100, STATUS_CONCLUIDO, none, none, some (wdFeeNote (some 2))⟩] := by
  have hbalw : get_balance dbW 7 = 100 := rfl
  have hnet : round2he (((100:ℚ) - cfgEx.TAXA_SAQUE_FIXA) / (1 + cfgEx.TAXA_SAQUE_PERCENTUAL))
      = 9333/100 := by
    have harg : (((100:ℚ) - cfgEx.TAXA_SAQUE_FIXA) / (1 + cfgEx.TAXA_SAQUE_PERCENTUAL))
        = 280/3 := by
      norm_num [cfgEx]
    rw [harg, round2he_low (280/3) 9333 (by push_cast; norm_num) (by push_cast; norm_num)]
    push_cast
    norm_num
  have h := (C6_withdrawal_flow cfgEx dbW 7 "cpf:1" 100 (by decide)
      ⟨10000, by rw [hbalw]; norm_num⟩ ⟨10000, by norm_num⟩).2
    (by norm_num [cfgEx])
    (by rw [hnet]; norm_num [cfgEx])
    (by rw [hbalw]; norm_num)
  constructor
  · rw [h.1, hbalw]
    norm_num
  · have hT := h.2
    rw [hnet] at hT
    rw [hT]
    have hid : dbW.next_id = 2 := rfl
    have htr : dbW.transactions = [] := rfl
    rw [hid, htr]
    norm_num

/-! ## C7: realized profit -/

theorem sumAmounts_cons (t : TxRow) (l : List TxRow) :
    sumAmounts (t :: l) = t.amount + sumAmounts l := rfl

theorem pats_disjoint (n? : Option String) (h : noteMatches depFeePat n? = true) :
    noteMatches wdFeePat n? = false := by
  cases n? with
  | none => simp [noteMatches] at h
  | some s =>
    simp only [noteMatches] at h ⊢
    by_contra hw
    rw [Bool.not_eq_false] at hw
    rw [List.isPrefixOf_iff_prefix] at h hw
    rcases List.prefix_or_prefix_of_prefix h hw with hc | hc
    · exact absurd hc (by decide)
    · exact absurd hc (by decide)

theorem profit_split (txs : List TxRow) (l : List TxRow) :
    sumAmounts (l.filter (profitRow txs))
      = sumAmounts (l.filter (fun t => t.type == "FEE" && t.status == STATUS_CONCLUIDO
          && noteMatches depFeePat t.admin_notes))
        + sumAmounts (l.filter (fun t => t.type == "FEE" && t.status == STATUS_CONCLUIDO
          && isWdFeeLinked txs t)) := by
  induction l with
  | nil => simp [sumAmounts]
  | cons t rest ih =>
    simp only [List.filter_cons]
    by_cases ha : (t.type == "FEE" && t.status == STATUS_CONCLUIDO) = true
    · by_cases hd : noteMatches depFeePat t.admin_notes = true
      · have hw : isWdFeeLinked txs t = false := by
          unfold isWdFeeLinked
          rw [pats_disjoint _ hd]
          rfl
        simp only [profitRow, ha, hd, hw, Bool.true_and, Bool.and_true, Bool.and_false,
          Bool.true_or, Bool.or_false, if_true, if_false, Bool.false_eq_true, ite_false,
          ite_true, sumAmounts_cons, ih]
        ring
      · by_cases hw : isWdFeeLinked txs t = true
        · simp only [profitRow, ha, hd, hw, Bool.true_and, Bool.and_true, Bool.and_false,
            Bool.false_or, Bool.or_true, if_true, if_false, Bool.false_eq_true, ite_false,
            ite_true, sumAmounts_cons, ih]
          ring
        · simp only [Bool.not_eq_true] at hd hw
          simp only [profitRow, ha, hd, hw, Bool.true_and, Bool.and_false,
            Bool.or_self, Bool.false_eq_true, if_false, ite_false, ih]
    · simp only [Bool.not_eq_true] at ha
      simp only [profitRow, ha, Bool.false_and, Bool.false_eq_true, if_false, ite_false, ih]

/-- Rows for the C7 scenario: a paid deposit, its 11.00 deposit fee, an
under-review withdrawal of 93.33 and its 6.67 withdrawal fee. -/
def pr1 : TxRow := ⟨1, 7, "DEPOSIT", 100, STATUS_DEPOSITO_PAGO, none, some "mp1", none⟩

/-- See `pr1`. -/
def pr2 : TxRow := ⟨2, 7, "FEE", 11, STATUS_CONCLUIDO, none, none, some (depFeeNote 1)⟩

/-- See `pr1`. -/
def pr3 : TxRow := ⟨3, 7, "WITHDRAWAL", 9333/100, STATUS_EM_ANALISE, some "k", none, none⟩

/-- `pr3` after the withdrawal completes. -/
def pr3c : TxRow := ⟨3, 7, "WITHDRAWAL", 9333/100, STATUS_CONCLUIDO, some "k", none, none⟩

/-- See `pr1`. -/
def pr4 : TxRow := ⟨4, 7, "FEE", 667/100, STATUS_CONCLUIDO, none, none, some (wdFeeNote (some 3))⟩

/-- The C7 scenario ledger. -/
def profitTxs : List TxRow := [pr1, pr2, pr3, pr4]

/-- The C7 scenario ledger once the withdrawal is CONCLUIDO. -/
def profitTxs2 : List TxRow := [pr1, pr2, pr3c, pr4]

/-- The C7 scenario store. -/
def dbProfit : DB := ⟨[⟨7, 0⟩], profitTxs, 5⟩

/-- C7: `calculate_profits` returns exactly the sum of the always-counted
deposit fees plus the withdrawal fees whose note-linked withdrawal is
CONCLUIDO; on the scenario ledger the 6.67 withdrawal fee is excluded
while its withdrawal is EM ANÁLISE (profit 11.00) and included once the
withdrawal is CONCLUIDO (profit 17.67). -/
theorem C7_realized_profit :
    (∀ db : DB, calculate_profits db = claimDepFees db + claimWdFees db) ∧
    calculate_profits dbProfit = 11 ∧
    calculate_profits (update_transaction_status dbProfit 3 STATUS_CONCLUIDO none none).2
      = 1767/100 := by
  refine ⟨fun db => profit_split db.transactions db.transactions, ?_, ?_⟩
  · have hb1 : profitRow profitTxs pr1 = false := by decide
    have hb2 : profitRow profitTxs pr2 = true := by decide
    have hb3 : profitRow profitTxs pr3 = false := by decide
    have hb4 : profitRow profitTxs pr4 = false := by decide
    show sumAmounts (profitTxs.filter (profitRow profitTxs)) = 11
    rw [show profitTxs = pr1 :: pr2 :: pr3 :: pr4 :: [] from rfl]
    simp only [List.filter_cons, List.filter_nil, hb1, hb2, hb3, hb4,
      Bool.false_eq_true, if_false, if_true, ite_false, ite_true]
    show pr2.amount + 0 = 11
    rw [show pr2.amount = 11 from rfl]
    norm_num
  · have hmap : profitTxs.map (applyStatusUpdate 3 STATUS_CONCLUIDO none none)
        = profitTxs2 := by
      simp [profitTxs, profitTxs2, pr1, pr2, pr3, pr3c, pr4, applyStatusUpdate]
    have hc1 : profitRow profitTxs2 pr1 = false := by decide
    have hc2 : profitRow profitTxs2 pr2 = true := by decide
    have hc3 : profitRow profitTxs2 pr3c = false := by decide
    have hc4 : profitRow profitTxs2 pr4 = true := by decide
    show sumAmounts ((profitTxs.map (applyStatusUpdate 3 STATUS_CONCLUIDO none none)).filter
      (profitRow (profitTxs.map (applyStatusUpdate 3 STATUS_CONCLUIDO none none)))) = 1767/100
    rw [hmap]
    rw [show profitTxs2 = pr1 :: pr2 :: pr3c :: pr4 :: [] from rfl]
    simp only [List.filter_cons, List.filter_nil, hc1, hc2, hc3, hc4,
      Bool.false_eq_true, if_false, if_true, ite_false, ite_true]
    show pr2.amount + (pr4.amount + 0) = 1767/100
    rw [show pr2.amount = 11 from rfl, show pr4.amount = 667/100 from rfl]
    norm_num
